import Mathlib

/-!
# Formal model of the MASH TDMA timing stress model

This file is a shallow embedding of the pure computational core of
`firmware/tests/sync_timing_stress.py`: the slot-width and frame-time
model, the cut-point random partition, the estimated success rate, and
the iteration space of the simulator's main loop.

Conventions of the embedding:
- Python integers are `Int`; Python floor division `//` is `Int.fdiv`.
- The float constant `PACKET_LOSS_PROB = 0.10` and the float arithmetic
  of `estimated_success_rate` are modelled exactly over `ℚ`.
- The random generator is modelled by quantifying over every value that
  `sorted(random.sample(range(1, total), parts - 1))` can return: a
  strictly increasing list of integers in `[1, total - 1]`.
-/

/-- Timing constant from the source (mirrors TDMAProtocol.h). -/
def TDMA_FRAME_PERIOD_MS : Int := 20

/-- Frame period in microseconds, computed as in the source. -/
def TDMA_FRAME_PERIOD_US : Int := TDMA_FRAME_PERIOD_MS * 1000

/-- Beacon airtime in microseconds. -/
def TDMA_BEACON_DURATION_US : Int := 500

/-- Gap before the first data slot. -/
def TDMA_FIRST_SLOT_GAP_US : Int := 500

/-- End-of-frame guard time. -/
def TDMA_GUARD_TIME_US : Int := 2000

/-- Minimum slot width. -/
def TDMA_SLOT_MIN_WIDTH_US : Int := 2500

/-- Per-sensor-sample payload size in bytes. -/
def TDMA_SENSOR_DATA_SIZE : Int := 25

/-- Per-slot data header size in bytes. -/
def TDMA_DATA_HEADER_SIZE : Int := 8

/-- Samples aggregated per slot. -/
def TDMA_SAMPLES_PER_FRAME : Int := 4

/-- Non-radio per-slot overhead. -/
def FIXED_OVERHEAD_US : Int := 1500

/-- Gap between consecutive data slots. -/
def INTER_SLOT_GAP_US : Int := 100

/-- OFDM preamble plus PLCP duration. -/
def OFDM_PREAMBLE_US : Int := 20

/-- Data bits per OFDM symbol at 6 Mbps. -/
def OFDM_N_DBPS : Int := 24

/-- OFDM symbol duration. -/
def OFDM_SYMBOL_US : Int := 4

/-- Short interframe spacing. -/
def OFDM_SIFS_US : Int := 10

/-- Acknowledgment duration. -/
def OFDM_ACK_US : Int := 44

/-- MAC(24) + vendor(10) + FCS(4) frame overhead in bytes. -/
def FRAME_OVERHEAD_BYTES : Int := 38

/-- Number of random partitions drawn per (total, nodes) pair. -/
def RANDOM_DISTRIBUTIONS : Nat := 1000

/-- Beacon loss probability 0.10, modelled exactly over the rationals. -/
def PACKET_LOSS_PROB : ℚ := 1 / 10

/-- Number of consecutive missed beacons a node tolerates. -/
def FREEWHEEL_FRAMES : Nat := 2

/-- Maximum node count iterated by the simulator. -/
def MAX_NODES : Nat := 8

/-- Maximum total sensor count iterated by the simulator. -/
def MAX_TOTAL_SENSORS : Nat := 16

/-- Translation of `calculate_slot_width` from the source: zero for
non-positive sensor counts, otherwise fixed overhead plus OFDM airtime,
clamped below at `TDMA_SLOT_MIN_WIDTH_US` and above at `0xFFFF`. -/
def calculate_slot_width (sensor_count : Int) : Int :=
  if sensor_count ≤ 0 then 0
  else
    let payload_bytes :=
      TDMA_DATA_HEADER_SIZE + TDMA_SAMPLES_PER_FRAME * sensor_count * TDMA_SENSOR_DATA_SIZE + 1
    let ofdm_bits := 326 + 8 * payload_bytes
    let ofdm_syms := Int.fdiv (ofdm_bits + OFDM_N_DBPS - 1) OFDM_N_DBPS
    let data_frame_us := OFDM_PREAMBLE_US + OFDM_SYMBOL_US * ofdm_syms
    let airtime_us := data_frame_us + OFDM_SIFS_US + OFDM_ACK_US
    let total_us := FIXED_OVERHEAD_US + airtime_us
    let total_us := if total_us < TDMA_SLOT_MIN_WIDTH_US then TDMA_SLOT_MIN_WIDTH_US else total_us
    let total_us := if total_us > 0xFFFF then 0xFFFF else total_us
    total_us

/-- Unclamped slot width of a node with a positive sensor count: fixed
overhead plus the OFDM airtime of its payload. Same expression as the
positive branch of `calculate_slot_width` before the two clamps. -/
def slot_width_raw (sensor_count : Int) : Int :=
  FIXED_OVERHEAD_US +
    (OFDM_PREAMBLE_US +
      OFDM_SYMBOL_US *
        Int.fdiv
          (326 + 8 * (TDMA_DATA_HEADER_SIZE +
            TDMA_SAMPLES_PER_FRAME * sensor_count * TDMA_SENSOR_DATA_SIZE + 1) +
            OFDM_N_DBPS - 1)
          OFDM_N_DBPS +
      OFDM_SIFS_US + OFDM_ACK_US)

/-- Translation of `calculate_frame_time` from the source: beacon only
for an empty assignment, otherwise beacon + first gap + slot widths +
inter-slot gaps + guard. -/
def calculate_frame_time (sensor_counts : List Int) : Int :=
  if sensor_counts = [] then TDMA_BEACON_DURATION_US
  else
    TDMA_BEACON_DURATION_US + TDMA_FIRST_SLOT_GAP_US
      + (sensor_counts.map calculate_slot_width).sum
      + ((sensor_counts.length : Int) - 1) * INTER_SLOT_GAP_US
      + TDMA_GUARD_TIME_US

/-- Translation of the accumulation loop of `random_partition`: with
`prev` the previous cut (initially 0), emit the consecutive differences
of the cut points and close with `total - prev`. -/
def partition_diffs (total : Int) : Int → List Int → List Int
  | prev, [] => [total - prev]
  | prev, c :: cs => (c - prev) :: partition_diffs total c cs

/-- Translation of `random_partition` from the source, with the sorted
sample of cut points passed explicitly: the generator draw
`sorted(random.sample(range(1, total), parts - 1))` is any strictly
increasing list of integers in `[1, total - 1]` of length `parts - 1`. -/
def random_partition (total : Int) (cuts : List Int) : List Int :=
  partition_diffs total 0 cuts

/-- Translation of `estimated_success_rate` from the source, with the
float arithmetic modelled exactly over `ℚ`. -/
def estimated_success_rate (schedule_ok : ℚ) : ℚ :=
  let drop_prob := PACKET_LOSS_PROB ^ (FREEWHEEL_FRAMES + 1)
  let beacon_ok := 1 - drop_prob
  schedule_ok * beacon_ok

/-- The (total_sensors, node_count) pairs evaluated by `run`:
`total` in `range(1, MAX_TOTAL_SENSORS + 1)` and `nodes` in
`range(1, min(MAX_NODES, total) + 1)`. -/
def evaluated_pairs : List (Nat × Nat) :=
  (List.range MAX_TOTAL_SENSORS).flatMap (fun t =>
    (List.range (min MAX_NODES (t + 1))).map (fun n => (t + 1, n + 1)))

/-- Whether one Monte Carlo trial is schedule-ok: the frame time of the
partition determined by the drawn cut points is within the period. -/
def trial_ok (total : Int) (cuts : List Int) : Bool :=
  calculate_frame_time (random_partition total cuts) ≤ TDMA_FRAME_PERIOD_US

/-- For a positive sensor count the slot width is the raw airtime value
clamped into the interval [2500, 65535]. -/
theorem calculate_slot_width_pos_eq (n : Int) (h : 0 < n) :
    calculate_slot_width n = min 65535 (max 2500 (slot_width_raw n)) := by
  have hn : ¬ n ≤ 0 := not_le.mpr h
  simp only [calculate_slot_width, slot_width_raw, hn, if_false, TDMA_SLOT_MIN_WIDTH_US]
  split_ifs <;> omega

/-- The raw slot width is monotone in the sensor count. -/
theorem slot_width_raw_mono {a b : Int} (h : a ≤ b) : slot_width_raw a ≤ slot_width_raw b := by
  simp only [slot_width_raw, TDMA_DATA_HEADER_SIZE, TDMA_SAMPLES_PER_FRAME,
    TDMA_SENSOR_DATA_SIZE, OFDM_N_DBPS, OFDM_PREAMBLE_US, OFDM_SYMBOL_US, OFDM_SIFS_US,
    OFDM_ACK_US, FIXED_OVERHEAD_US]
  have hd : Int.fdiv (326 + 8 * (8 + 4 * a * 25 + 1) + 24 - 1) 24
      ≤ Int.fdiv (326 + 8 * (8 + 4 * b * 25 + 1) + 24 - 1) 24 := by
    rw [Int.fdiv_eq_ediv _ (by norm_num), Int.fdiv_eq_ediv _ (by norm_num)]
    exact Int.ediv_le_ediv (by norm_num) (by linarith)
  omega

/-- Bounds of the clamp: positive sensor counts give a slot width in
[2500, 65535]. -/
theorem calculate_slot_width_bounds (n : Int) (h : 0 < n) :
    2500 ≤ calculate_slot_width n ∧ calculate_slot_width n ≤ 65535 := by
  rw [calculate_slot_width_pos_eq n h]
  omega

/-- A slot width is never negative. -/
theorem calculate_slot_width_nonneg (n : Int) : 0 ≤ calculate_slot_width n := by
  by_cases h : n ≤ 0
  · simp [calculate_slot_width, h]
  · have := calculate_slot_width_bounds n (not_le.mp h)
    omega

/-- The slot width is monotone in the sensor count. -/
theorem calculate_slot_width_mono {a b : Int} (h : a ≤ b) :
    calculate_slot_width a ≤ calculate_slot_width b := by
  by_cases hb : b ≤ 0
  · have ha : a ≤ 0 := le_trans h hb
    simp [calculate_slot_width, ha, hb]
  · by_cases ha : a ≤ 0
    · have h0 : calculate_slot_width a = 0 := by simp [calculate_slot_width, ha]
      rw [h0]
      exact calculate_slot_width_nonneg b
    · rw [calculate_slot_width_pos_eq a (not_le.mp ha),
        calculate_slot_width_pos_eq b (not_le.mp hb)]
      have := slot_width_raw_mono h
      omega

/-- Frame time of a non-empty assignment, written with the else branch
of the source. -/
theorem calculate_frame_time_ne_nil (l : List Int) (h : l ≠ []) :
    calculate_frame_time l =
      TDMA_BEACON_DURATION_US + TDMA_FIRST_SLOT_GAP_US
        + (l.map calculate_slot_width).sum
        + ((l.length : Int) - 1) * INTER_SLOT_GAP_US
        + TDMA_GUARD_TIME_US := by
  rw [calculate_frame_time, if_neg h]

/-- Raising one sensor count pointwise never lowers the frame time. -/
theorem frame_time_mono_elem (pre post : List Int) (x y : Int) (h : x ≤ y) :
    calculate_frame_time (pre ++ x :: post) ≤ calculate_frame_time (pre ++ y :: post) := by
  rw [calculate_frame_time_ne_nil _ (by simp), calculate_frame_time_ne_nil _ (by simp)]
  simp only [List.map_append, List.sum_append, List.map_cons, List.sum_cons,
    List.length_append, List.length_cons]
  have := calculate_slot_width_mono h
  linarith

/-- Appending one node never lowers the frame time. -/
theorem frame_time_mono_append (l : List Int) (x : Int) :
    calculate_frame_time l ≤ calculate_frame_time (l ++ [x]) := by
  have hx := calculate_slot_width_nonneg x
  rcases eq_or_ne l [] with rfl | h
  · rw [List.nil_append, calculate_frame_time_ne_nil [x] (by simp)]
    rw [calculate_frame_time, if_pos rfl]
    simp only [List.map_cons, List.map_nil, List.sum_cons, List.sum_nil, List.length_cons,
      List.length_nil, TDMA_BEACON_DURATION_US, TDMA_FIRST_SLOT_GAP_US, TDMA_GUARD_TIME_US,
      INTER_SLOT_GAP_US]
    push_cast
    linarith
  · rw [calculate_frame_time_ne_nil l h, calculate_frame_time_ne_nil _ (by simp)]
    simp only [List.map_append, List.sum_append, List.map_cons, List.map_nil, List.sum_cons,
      List.sum_nil, List.length_append, List.length_cons, List.length_nil,
      INTER_SLOT_GAP_US]
    push_cast
    linarith

/-- C8: a node with zero sensors is assigned a slot width of exactly 0
microseconds. -/
theorem claim_C8 : calculate_slot_width 0 = 0 := by decide

/-- C9: every negative sensor count falls into the zero branch of
`calculate_slot_width`, so the result is 0. -/
theorem claim_C9 (n : Int) (h : n < 0) : calculate_slot_width n = 0 := by
  simp [calculate_slot_width, le_of_lt h]

/-- Witness for C9 at sensor count -7. -/
theorem claim_C9_witness : calculate_slot_width (-7) = 0 :=
  claim_C9 (-7) (by norm_num)

/-- C2 fails as stated: at sensor count 0 the result is 0, which falls
below the minimum slot width 2500. -/
theorem claim_C2_cex :
    calculate_slot_width 0 = 0 ∧ ¬ TDMA_SLOT_MIN_WIDTH_US ≤ calculate_slot_width 0 := by
  decide

/-- C2 (amended): for every integer sensor count the slot width never
exceeds 65535, and for every positive sensor count it never falls below
`TDMA_SLOT_MIN_WIDTH_US`; non-positive counts give 0. -/
theorem claim_C2 (n : Int) :
    calculate_slot_width n ≤ 65535 ∧
      (1 ≤ n → TDMA_SLOT_MIN_WIDTH_US ≤ calculate_slot_width n) := by
  constructor
  · by_cases h : n ≤ 0
    · simp [calculate_slot_width, h]
    · exact (calculate_slot_width_bounds n (not_le.mp h)).2
  · intro h
    have := (calculate_slot_width_bounds n (by omega)).1
    simp only [TDMA_SLOT_MIN_WIDTH_US]
    omega

/-- Witness for C2 (amended) at sensor count 3. -/
theorem claim_C2_witness :
    calculate_slot_width 3 ≤ 65535 ∧ TDMA_SLOT_MIN_WIDTH_US ≤ calculate_slot_width 3 :=
  ⟨(claim_C2 3).1, (claim_C2 3).2 (by norm_num)⟩

/-- C1 fails as stated: with one node, the sample of 0 cut points is
forced to be empty, the partition is [16], the frame time is 6774,
which does not exceed 20000, so every trial of the (16, 1) pair is
schedule-ok and the rate is 1.0. -/
theorem claim_C1_cex :
    random_partition 16 [] = [(16 : Int)] ∧
    calculate_frame_time [(16 : Int)] = 6774 ∧
    ¬ 20000 < calculate_frame_time [(16 : Int)] ∧
    trial_ok 16 [] = true := by
  decide

/-- C1 (amended): the single-node 16-sensor scenario is feasible:
calculate_frame_time [16] = 6774 ≤ 20000, and every trial of the
(16, 1) pair (whose cut-point sample is necessarily empty) is
schedule-ok, so schedule_ok_rate = 1.0. -/
theorem claim_C1 :
    calculate_frame_time [(16 : Int)] = 6774 ∧
    calculate_frame_time [(16 : Int)] ≤ TDMA_FRAME_PERIOD_US ∧
    (∀ cuts : List Int, cuts.length = 1 - 1 → trial_ok 16 cuts = true) := by
  refine ⟨by decide, by decide, ?_⟩
  intro cuts hc
  rw [List.length_eq_zero.mp hc]
  decide

/-- Witness for C1 (amended) at the empty cut sample. -/
theorem claim_C1_witness : trial_ok 16 [] = true :=
  claim_C1.2.2 [] rfl

/-- C4: the frame time of an empty assignment is the beacon duration
500, and for every non-empty assignment it is beacon + first gap + sum
of slot widths + (length - 1) inter-slot gaps + guard. -/
theorem claim_C4 :
    calculate_frame_time ([] : List Int) = TDMA_BEACON_DURATION_US ∧
    TDMA_BEACON_DURATION_US = 500 ∧
    (∀ l : List Int, l ≠ [] → (∀ s ∈ l, 0 ≤ s) →
      calculate_frame_time l =
        TDMA_BEACON_DURATION_US + TDMA_FIRST_SLOT_GAP_US
          + (l.map calculate_slot_width).sum
          + ((l.length : Int) - 1) * INTER_SLOT_GAP_US
          + TDMA_GUARD_TIME_US) := by
  refine ⟨rfl, rfl, ?_⟩
  intro l h _
  exact calculate_frame_time_ne_nil l h

/-- Witness for C4 at the assignment [2, 3]. -/
theorem claim_C4_witness :
    calculate_frame_time [(2 : Int), 3] =
      TDMA_BEACON_DURATION_US + TDMA_FIRST_SLOT_GAP_US
        + ([(2 : Int), 3].map calculate_slot_width).sum
        + (([(2 : Int), 3].length : Int) - 1) * INTER_SLOT_GAP_US
        + TDMA_GUARD_TIME_US :=
  claim_C4.2.2 [2, 3] (by decide) (by decide)

/-- C5: calculate_frame_time is monotone: raising one element (at any
position, among any surrounding elements) never lowers the result, and
appending one node with a non-negative count never lowers the result. -/
theorem claim_C5 :
    (∀ (pre post : List Int) (x y : Int), 0 ≤ x → x ≤ y →
      calculate_frame_time (pre ++ x :: post) ≤ calculate_frame_time (pre ++ y :: post)) ∧
    (∀ (l : List Int) (x : Int), 0 ≤ x →
      calculate_frame_time l ≤ calculate_frame_time (l ++ [x])) :=
  ⟨fun pre post x y _ hxy => frame_time_mono_elem pre post x y hxy,
   fun l x _ => frame_time_mono_append l x⟩

/-- Witness for C5: raising the middle element of [2, 1, 3] to 5, and
appending a node with 4 sensors to [2, 3]. -/
theorem claim_C5_witness :
    calculate_frame_time [(2 : Int), 1, 3] ≤ calculate_frame_time [(2 : Int), 5, 3] ∧
    calculate_frame_time [(2 : Int), 3] ≤ calculate_frame_time [(2 : Int), 3, 4] :=
  ⟨claim_C5.1 [2] [3] 1 5 (by norm_num) (by norm_num),
   claim_C5.2 [2, 3] 4 (by norm_num)⟩

/-- C6: with loss probability 1/10 and freewheel count 2,
estimated_success_rate 1 = 999/1000 = 0.999, and in general the result
is the schedule-ok rate times 1 - p^(F+1). -/
theorem claim_C6 :
    estimated_success_rate 1 = 999 / 1000 ∧
    (∀ s : ℚ, estimated_success_rate s =
      s * (1 - PACKET_LOSS_PROB ^ (FREEWHEEL_FRAMES + 1))) := by
  constructor
  · norm_num [estimated_success_rate, PACKET_LOSS_PROB, FREEWHEEL_FRAMES]
  · intro s
    rfl

/-- C7: every (total_sensors, node_count) pair the simulator evaluates
satisfies 1 ≤ nodes ≤ min(MAX_NODES, total) ≤ total, so the invalid
case nodes > total is excluded from iteration, and the cut-point sample
size nodes - 1 never exceeds the population size total - 1. -/
theorem claim_C7 :
    ∀ p ∈ evaluated_pairs,
      1 ≤ p.2 ∧ p.2 ≤ min MAX_NODES p.1 ∧ p.2 ≤ p.1 ∧
        1 ≤ p.1 ∧ p.1 ≤ MAX_TOTAL_SENSORS ∧ p.2 - 1 ≤ p.1 - 1 := by
  decide

/-- Witness for C7 at the evaluated pair (5, 3). -/
theorem claim_C7_witness :
    1 ≤ 3 ∧ 3 ≤ min MAX_NODES 5 ∧ 3 ≤ 5 ∧ 1 ≤ 5 ∧ 5 ≤ MAX_TOTAL_SENSORS ∧ 3 - 1 ≤ 5 - 1 :=
  claim_C7 (5, 3) (by decide)

/-- The partition loop emits one part per cut point plus the closing
part. -/
theorem partition_diffs_length (total : Int) :
    ∀ (cuts : List Int) (prev : Int),
      (partition_diffs total prev cuts).length = cuts.length + 1 := by
  intro cuts
  induction cuts with
  | nil => intro prev; rfl
  | cons c cs ih =>
    intro prev
    simp [partition_diffs, ih c]

/-- The parts emitted by the loop telescope to total - prev. -/
theorem partition_diffs_sum (total : Int) :
    ∀ (cuts : List Int) (prev : Int),
      (partition_diffs total prev cuts).sum = total - prev := by
  intro cuts
  induction cuts with
  | nil => intro prev; simp [partition_diffs]
  | cons c cs ih =>
    intro prev
    simp only [partition_diffs, List.sum_cons, ih c]
    ring

/-- Every part emitted by the loop lies in [1, total] when the cut
points are strictly increasing and strictly between prev and total,
with 0 ≤ prev < total. -/
theorem partition_diffs_mem (total : Int) :
    ∀ (cuts : List Int) (prev : Int), 0 ≤ prev → prev < total →
      cuts.Pairwise (· < ·) → (∀ c ∈ cuts, prev < c ∧ c < total) →
      ∀ x ∈ partition_diffs total prev cuts, 1 ≤ x ∧ x ≤ total := by
  intro cuts
  induction cuts with
  | nil =>
    intro prev h0 hlt _ _ x hx
    simp only [partition_diffs, List.mem_singleton] at hx
    subst hx
    omega
  | cons c cs ih =>
    intro prev h0 hlt hpw hall x hx
    rw [List.pairwise_cons] at hpw
    have hc := hall c (List.mem_cons_self c cs)
    simp only [partition_diffs, List.mem_cons] at hx
    rcases hx with rfl | hx
    · omega
    · exact ih c (by omega) hc.2 hpw.2
        (fun d hd => ⟨hpw.1 d hd, (hall d (List.mem_cons_of_mem c hd)).2⟩) x hx

/-- A strictly increasing integer list with every element strictly
between lo and hi is empty or has at most hi - lo - 1 elements. -/
theorem pairwise_lt_length_bound :
    ∀ (l : List Int) (lo hi : Int), l.Pairwise (· < ·) →
      (∀ x ∈ l, lo < x ∧ x < hi) →
      l = [] ∨ (l.length : Int) ≤ hi - lo - 1 := by
  intro l
  induction l with
  | nil => intro lo hi _ _; exact Or.inl rfl
  | cons c cs ih =>
    intro lo hi hpw hall
    rw [List.pairwise_cons] at hpw
    have hc := hall c (List.mem_cons_self c cs)
    have hcs := ih c hi hpw.2
      (fun d hd => ⟨hpw.1 d hd, (hall d (List.mem_cons_of_mem c hd)).2⟩)
    right
    rcases hcs with rfl | hlen
    · simp only [List.length_cons, List.length_nil]
      omega
    · simp only [List.length_cons]
      push_cast
      omega

/-- When the number of cut points saturates the range (one fewer than
total - prev), every consecutive difference is forced to be 1. -/
theorem partition_diffs_forced :
    ∀ (cuts : List Int) (prev : Int) (total : Int), cuts.Pairwise (· < ·) →
      (∀ c ∈ cuts, prev < c ∧ c < total) →
      (cuts.length : Int) = total - prev - 1 →
      partition_diffs total prev cuts = List.replicate (cuts.length + 1) 1 := by
  intro cuts
  induction cuts with
  | nil =>
    intro prev total _ _ hlen
    simp only [List.length_nil, Nat.cast_zero] at hlen
    simp only [partition_diffs, List.length_nil, List.replicate_one]
    congr 1
    omega
  | cons c cs ih =>
    intro prev total hpw hall hlen
    rw [List.pairwise_cons] at hpw
    have hc := hall c (List.mem_cons_self c cs)
    have htail : ∀ d ∈ cs, c < d ∧ d < total :=
      fun d hd => ⟨hpw.1 d hd, (hall d (List.mem_cons_of_mem c hd)).2⟩
    have hbound := pairwise_lt_length_bound cs c total hpw.2 htail
    simp only [List.length_cons] at hlen
    push_cast at hlen
    have hcp : c = prev + 1 := by
      rcases hbound with rfl | hblen
      · simp only [List.length_nil, Nat.cast_zero] at hlen
        omega
      · omega
    have hrec : partition_diffs total c cs = List.replicate (cs.length + 1) 1 :=
      ih c total hpw.2 htail (by omega)
    have hone : c - prev = 1 := by omega
    simp only [partition_diffs, hrec, List.length_cons, List.replicate_succ, hone]

/-- C3: for 1 ≤ parts ≤ total, every list random_partition can return
has length parts, sums to total, and has every part in [1, total]. -/
theorem claim_C3 (total : Int) (parts : Nat) (cuts : List Int)
    (htotal : 1 ≤ total) (hparts : 1 ≤ parts) (_hpt : (parts : Int) ≤ total)
    (hsorted : cuts.Pairwise (· < ·))
    (hrange : ∀ c ∈ cuts, 1 ≤ c ∧ c < total)
    (hlen : cuts.length = parts - 1) :
    (random_partition total cuts).length = parts ∧
    (random_partition total cuts).sum = total ∧
    ∀ x ∈ random_partition total cuts, 1 ≤ x ∧ x ≤ total := by
  refine ⟨?_, ?_, ?_⟩
  · rw [random_partition, partition_diffs_length]
    omega
  · rw [random_partition, partition_diffs_sum]
    ring
  · exact partition_diffs_mem total cuts 0 le_rfl (by omega) hsorted
      (fun c hc => ⟨by have := (hrange c hc).1; omega, (hrange c hc).2⟩)

/-- Witness for C3: total 5 into 3 parts with cut points [2, 3]. -/
theorem claim_C3_witness :
    (random_partition 5 [2, 3]).length = 3 ∧
    (random_partition 5 [2, 3]).sum = 5 ∧
    ∀ x ∈ random_partition 5 [2, 3], 1 ≤ x ∧ x ≤ 5 :=
  claim_C3 5 3 [2, 3] (by norm_num) (by norm_num) (by norm_num)
    (by decide) (by decide) (by decide)

/-- C10: when parts = total, the total - 1 cut points are forced to be
exactly 1, ..., total - 1, so random_partition returns the all-ones
list of length total for every state of the random generator. -/
theorem claim_C10 (total : Int) (cuts : List Int)
    (htotal : 1 ≤ total)
    (hsorted : cuts.Pairwise (· < ·))
    (hrange : ∀ c ∈ cuts, 1 ≤ c ∧ c < total)
    (hlen : (cuts.length : Int) = total - 1) :
    random_partition total cuts = List.replicate total.toNat 1 := by
  have hforced := partition_diffs_forced cuts 0 total hsorted
    (fun c hc => ⟨by have := (hrange c hc).1; omega, (hrange c hc).2⟩)
    (by omega)
  rw [random_partition, hforced]
  congr 1
  omega

/-- Witness for C10: total 3 with the forced cut points [1, 2]. -/
theorem claim_C10_witness :
    random_partition 3 [1, 2] = List.replicate (3 : Int).toNat 1 :=
  claim_C10 3 [1, 2] (by norm_num) (by decide) (by decide) (by decide)
